import Mathlib

/-!
# Verification of the dynamic to-do list scripts

Shallow embedding of the three near-duplicate browser scripts of the
repository (`src/script.js`, `src/unnamed/part_001`, `src/unnamed/part_000`).

Modelling choices:

* `localStorage` holds at most the one key `tasks`; at the list level it is
  modelled as `Option (List String)`: `none` means the key is absent,
  `some ts` means the key holds `JSON.stringify ts` for a list of task
  strings `ts`.  Every write the scripts perform stores `JSON.stringify`
  of an array of strings, so the list level is faithful for all states the
  scripts themselves produce.  The idiom
  `JSON.parse(localStorage.getItem('tasks') || '[]')` becomes `getTasks`.
* For claims about raw storage contents (missing key, malformed JSON) a
  second, raw-string level models `localStorage.getItem` as
  `Option String` together with a model of `JSON.parse` restricted to
  arrays of JSON strings (`parseTasks`); `parseTasks s = none` means
  `JSON.parse` throws on `s` (or the parsed value is not an array of
  strings, in which case the subsequent `forEach` throws instead).
* The DOM list `<ul id="task-list">` is modelled as the list of the text
  contents of its `<li>` children, in document order.  The input field is
  the `input` component of the state, and user-visible validation feedback
  (`alert` in `script.js`, the message box of `part_000`) is accumulated
  in `messages`.
* All three scripts react to exactly two user gestures besides the initial
  page load: submitting the input (click on the add button or the Enter
  key, which run identical code) and clicking the Remove button of the
  i-th rendered entry.  These are the constructors of `Event`.
-/

/-- The state visible to one of the scripts: the rendered `<li>` texts in
order, the parsed content of `localStorage['tasks']` (`none` = key absent),
the current value of the text input, and the validation messages shown so
far (alerts / message boxes), oldest first. -/
structure AppState where
  dom : List String
  storage : Option (List String)
  input : String
  messages : List String
  deriving Repr, DecidableEq

/-- A user gesture: `submit text` models typing `text` into the input field
and clicking the add button (or pressing Enter, which runs the same code);
`remove i` models clicking the Remove button of the i-th rendered entry. -/
inductive Event where
  | submit (text : String)
  | remove (i : Nat)
  deriving Repr, DecidableEq

/-- The whitespace class of JavaScript `String.prototype.trim`: WhiteSpace
(tab, VT, FF, space, NBSP, BOM) and LineTerminator (LF, CR, LS, PS). -/
def isJsWhitespace (c : Char) : Bool :=
  c = ' ' || c = '\t' || c = '\n' || c = '\r' || c = '\x0b' || c = '\x0c' ||
    c = '\u00A0' || c = '\uFEFF' || c = '\u2028' || c = '\u2029'

/-- Model of JavaScript `String.prototype.trim`: drop leading and trailing
whitespace.  (Defined directly on the character list so that it evaluates
inside the kernel.) -/
def jsTrim (s : String) : String :=
  ⟨((s.data.dropWhile isJsWhitespace).reverse.dropWhile isJsWhitespace).reverse⟩

/-- The read idiom shared by all three variants:
`JSON.parse(localStorage.getItem('tasks') || '[]')` at the list level —
an absent key parses as the empty array. -/
def getTasks (storage : Option (List String)) : List String :=
  storage.getD []

namespace ScriptJS

/-- `src/script.js` lines 58–62: read the stored array, push the new text,
write the array back. -/
def saveTaskToLocalStorage (taskText : String) (storage : Option (List String)) :
    Option (List String) :=
  some (getTasks storage ++ [taskText])

/-- `src/script.js` lines 65–69: read the stored array, keep the entries
whose text differs from `taskText` (`tasks.filter(task => task !== taskText)`),
write the result back. -/
def removeTaskFromLocalStorage (taskText : String) (storage : Option (List String)) :
    Option (List String) :=
  some ((getTasks storage).filter (fun task => task ≠ taskText))

/-- `src/script.js` lines 35–55: append a new `<li>` with text `taskText`
(and its Remove button) to the task list; when `save` is true, also persist
the text.  The Remove button's behaviour is modelled by `clickRemove`. -/
def addTask (taskText : String) (save : Bool) (s : AppState) : AppState :=
  { s with
    dom := s.dom ++ [taskText]
    storage := if save then saveTaskToLocalStorage taskText s.storage else s.storage }

/-- `src/script.js` lines 11–19 (the Enter-key handler, lines 22–32, runs the
same code): trim the input; when non-empty, `addTask` with persistence and
clear the input; otherwise `alert("Please enter a task.")`. -/
def clickAddButton (s : AppState) : AppState :=
  let taskText := jsTrim s.input
  if taskText ≠ "" then
    { addTask taskText true s with input := "" }
  else
    { s with messages := s.messages ++ ["Please enter a task."] }

/-- `src/script.js` lines 44–47, the handler installed on the Remove button
of the i-th entry: detach that `<li>` from the page, then remove its text
from storage.  A click can only target an existing entry; an out-of-range
index leaves the state unchanged. -/
def clickRemove (i : Nat) (s : AppState) : AppState :=
  match s.dom[i]? with
  | some taskText =>
      { s with
        dom := s.dom.eraseIdx i
        storage := removeTaskFromLocalStorage taskText s.storage }
  | none => s

/-- `src/script.js` lines 72–75: parse the stored array and `addTask` each
entry with `save = false`. -/
def loadTasks (s : AppState) : AppState :=
  (getTasks s.storage).foldl (fun acc taskText => addTask taskText false acc) s

/-- The `DOMContentLoaded` handler of `src/script.js`: the page starts with
an empty task list and an empty input, and `loadTasks()` runs once. -/
def domContentLoaded (storage : Option (List String)) : AppState :=
  loadTasks { dom := [], storage := storage, input := "", messages := [] }

/-- One user gesture dispatched to the handlers of `src/script.js`. -/
def stepEv (s : AppState) : Event → AppState
  | .submit text => clickAddButton { s with input := text }
  | .remove i => clickRemove i s

/-- Page load from a given storage content followed by a sequence of user
gestures, under `src/script.js`. -/
def run (storage : Option (List String)) (evs : List Event) : AppState :=
  evs.foldl stepEv (domContentLoaded storage)

end ScriptJS

namespace Part001

/-- `src/unnamed/part_001` lines 60–64 (`saveTaskToStorage`): read the stored
array, push the new text, write the array back. -/
def saveTaskToStorage (taskText : String) (storage : Option (List String)) :
    Option (List String) :=
  some (getTasks storage ++ [taskText])

/-- `src/unnamed/part_001` lines 67–71 (`removeTaskFromStorage`): keep the
stored entries whose text differs from `taskText`. -/
def removeTaskFromStorage (taskText : String) (storage : Option (List String)) :
    Option (List String) :=
  some ((getTasks storage).filter (fun task => task ≠ taskText))

/-- `src/unnamed/part_001` lines 32–57 (`addTask`): append a new `<li>` with
text `taskText` to the task list; when `saveToStorage` is true, persist it. -/
def addTask (taskText : String) (saveToStorage : Bool) (s : AppState) : AppState :=
  { s with
    dom := s.dom ++ [taskText]
    storage := if saveToStorage then saveTaskToStorage taskText s.storage else s.storage }

/-- `src/unnamed/part_001` lines 12–18 (the Enter-key handler, lines 21–29,
runs the same code): trim the input; when non-empty, `addTask` and clear the
input.  Unlike the other two variants there is NO else branch: an empty
submission is silently ignored and no message is shown. -/
def clickAddButton (s : AppState) : AppState :=
  let taskText := jsTrim s.input
  if taskText ≠ "" then
    { addTask taskText true s with input := "" }
  else
    s

/-- `src/unnamed/part_001` lines 43–46, the Remove-button handler of the
i-th entry: detach that `<li>`, then remove its text from storage. -/
def clickRemove (i : Nat) (s : AppState) : AppState :=
  match s.dom[i]? with
  | some taskText =>
      { s with
        dom := s.dom.eraseIdx i
        storage := removeTaskFromStorage taskText s.storage }
  | none => s

/-- `src/unnamed/part_001` lines 74–77 (`loadTasks`). -/
def loadTasks (s : AppState) : AppState :=
  (getTasks s.storage).foldl (fun acc task => addTask task false acc) s

/-- The `DOMContentLoaded` handler of `src/unnamed/part_001`. -/
def domContentLoaded (storage : Option (List String)) : AppState :=
  loadTasks { dom := [], storage := storage, input := "", messages := [] }

/-- One user gesture dispatched to the handlers of `src/unnamed/part_001`. -/
def stepEv (s : AppState) : Event → AppState
  | .submit text => clickAddButton { s with input := text }
  | .remove i => clickRemove i s

/-- Page load followed by a sequence of user gestures, under
`src/unnamed/part_001`. -/
def run (storage : Option (List String)) (evs : List Event) : AppState :=
  evs.foldl stepEv (domContentLoaded storage)

end Part001

namespace Part000

/-- `src/unnamed/part_000` lines 19–42 (`showMessage`): display a transient
message box.  Only the fact that a message becomes visible is modelled; the
fade-in/fade-out timers are cosmetic. -/
def showMessage (message : String) (s : AppState) : AppState :=
  { s with messages := s.messages ++ [message] }

/-- `src/unnamed/part_000` lines 135–142 (`updateLocalStorageOnRemoval`):
keep the stored entries whose text differs from `taskToRemove`. -/
def updateLocalStorageOnRemoval (taskToRemove : String) (storage : Option (List String)) :
    Option (List String) :=
  some ((getTasks storage).filter (fun task => task ≠ taskToRemove))

/-- `src/unnamed/part_000` lines 74–128 (`addTask`): the task text is
`taskTextFromParam || taskInput.value.trim()` — note that JavaScript `||`
falls through to the trimmed input not only when the parameter is absent
(`none`) but also when it is the empty string, which is falsy.  An empty
resulting text shows an error message and returns.  Otherwise the entry is
appended to the list, the input is cleared unconditionally, and when `save`
is true the text is appended to storage. -/
def addTask (taskTextFromParam : Option String) (save : Bool) (s : AppState) : AppState :=
  let taskText :=
    match taskTextFromParam with
    | some t => if t = "" then jsTrim s.input else t
    | none => jsTrim s.input
  if taskText = "" then
    showMessage "Please enter a task." s
  else
    { s with
      dom := s.dom ++ [taskText]
      input := ""
      storage := if save then some (getTasks s.storage ++ [taskText]) else s.storage }

/-- `src/unnamed/part_000` lines 99–105, the Remove-button handler of the
i-th entry: detach that `<li>`, then filter its text out of storage. -/
def clickRemove (i : Nat) (s : AppState) : AppState :=
  match s.dom[i]? with
  | some taskText =>
      { s with
        dom := s.dom.eraseIdx i
        storage := updateLocalStorageOnRemoval taskText s.storage }
  | none => s

/-- `src/unnamed/part_000` lines 49–63 (`loadTasks`): `addTask(taskText, false)`
for each stored entry. -/
def loadTasks (s : AppState) : AppState :=
  (getTasks s.storage).foldl (fun acc taskText => addTask (some taskText) false acc) s

/-- The `DOMContentLoaded` handler of `src/unnamed/part_000`. -/
def domContentLoaded (storage : Option (List String)) : AppState :=
  loadTasks { dom := [], storage := storage, input := "", messages := [] }

/-- One user gesture dispatched to the handlers of `src/unnamed/part_000`:
the click and Enter handlers (lines 147–156) both call `addTask()` with no
arguments. -/
def stepEv (s : AppState) : Event → AppState
  | .submit text => addTask none true { s with input := text }
  | .remove i => clickRemove i s

/-- Page load followed by a sequence of user gestures, under
`src/unnamed/part_000`. -/
def run (storage : Option (List String)) (evs : List Event) : AppState :=
  evs.foldl stepEv (domContentLoaded storage)

end Part000

/-! ## Raw storage level

`localStorage.getItem('tasks')` returns the stored string or `null`; all
three variants feed `getItem('tasks') || '[]'` to `JSON.parse`.  Because
JavaScript `||` tests falsiness, the fallback `'[]'` is taken both when the
key is absent (`null`) and when the stored value is the empty string. -/

/-- JavaScript `localStorage.getItem('tasks') || '[]'`: `null` and the empty
string are falsy, so both fall back to the literal `"[]"`. -/
def getItemOrDefault (raw : Option String) : String :=
  match raw with
  | none => "[]"
  | some s => if s = "" then "[]" else s

/-- Skip JSON insignificant whitespace. -/
def skipWs : List Char → List Char
  | c :: rest =>
      if c = ' ' || c = '\t' || c = '\n' || c = '\r' then skipWs rest else c :: rest
  | [] => []

/-- Parse the body of a JSON string literal (the opening quote already
consumed), returning the decoded string and the remaining characters, or
`none` when the literal is malformed.  The short escapes produced or
accepted by `JSON.parse` are handled; `\u` escapes are rejected
conservatively (no claim depends on them). -/
def parseStringLit : List Char → Option (String × List Char)
  | [] => none
  | c :: rest =>
      if c = '"' then
        some ("", rest)
      else if c = '\\' then
        match rest with
        | [] => none
        | e :: rest2 =>
            let dec : Option Char :=
              if e = '"' then some '"'
              else if e = '\\' then some '\\'
              else if e = '/' then some '/'
              else if e = 'n' then some '\n'
              else if e = 't' then some '\t'
              else if e = 'r' then some '\r'
              else none
            match dec with
            | none => none
            | some d =>
                match parseStringLit rest2 with
                | none => none
                | some (str, rem) => some (⟨d :: str.data⟩, rem)
      else
        match parseStringLit rest with
        | none => none
        | some (str, rem) => some (⟨c :: str.data⟩, rem)

/-- Parse the elements of a non-empty JSON array of strings; `cs` starts
right after the opening quote of the next element.  `fuel` only bounds the
recursion; it is instantiated with the input length. -/
def parseItems : Nat → List Char → List String → Option (List String)
  | 0, _, _ => none
  | fuel + 1, cs, acc =>
      match parseStringLit cs with
      | none => none
      | some (str, rem) =>
          match skipWs rem with
          | ',' :: rest =>
              match skipWs rest with
              | '"' :: rest2 => parseItems fuel rest2 (str :: acc)
              | _ => none
          | ']' :: rest =>
              if skipWs rest = [] then some (str :: acc).reverse else none
          | _ => none

/-- Model of `JSON.parse` restricted to JSON arrays of strings: `some ts`
when the input is a well-formed array of string literals, `none` when
`JSON.parse` throws on the input (or the parsed value is not an array of
strings, in which case the scripts' subsequent `forEach` over it throws
instead — either way initialization dies with an uncaught error). -/
def parseTasks (s : String) : Option (List String) :=
  match skipWs s.data with
  | '[' :: rest =>
      match skipWs rest with
      | ']' :: rest2 => if skipWs rest2 = [] then some [] else none
      | '"' :: rest2 => parseItems (s.length + 1) rest2 []
      | _ => none
  | _ => none

/-- The raw-level read shared by all three `loadTasks` variants:
`JSON.parse(localStorage.getItem('tasks') || '[]')`.  `none` means the
parse throws and initialization terminates with an uncaught error. -/
def rawLoadTasks (raw : Option String) : Option (List String) :=
  parseTasks (getItemOrDefault raw)

/-- States of `src/script.js` reachable by page load followed by any
sequence of submit and remove gestures in which every remove click targets
an entry whose text occurs exactly once in the rendered list at the moment
of the click (an out-of-range click, which the DOM cannot produce anyway,
is a no-op and is permitted freely). -/
inductive SafeRemovalReachable : AppState → Prop
  | load (storage : Option (List String)) :
      SafeRemovalReachable (ScriptJS.domContentLoaded storage)
  | submit (s : AppState) (t : String) :
      SafeRemovalReachable s → SafeRemovalReachable (ScriptJS.stepEv s (Event.submit t))
  | remove (s : AppState) (i : Nat) :
      (∀ t, s.dom[i]? = some t → s.dom.count t = 1) →
      SafeRemovalReachable s → SafeRemovalReachable (ScriptJS.stepEv s (Event.remove i))

/-- Two app states agree on everything the user can observe except the
validation messages: the rendered list, the persisted tasks, and the input
field. -/
def Agrees (a b : AppState) : Prop :=
  a.dom = b.dom ∧ a.storage = b.storage ∧ a.input = b.input

/-! ## Basic lemmas about the load path -/

theorem ScriptJS.addTask_load_a (t : String) (s : AppState) :
    ScriptJS.addTask t false s = { s with dom := s.dom ++ [t] } := rfl

theorem ScriptJS.foldl_addTask_load_a (ts : List String) (s : AppState) :
    ts.foldl (fun acc t => ScriptJS.addTask t false acc) s = { s with dom := s.dom ++ ts } := by
  induction ts generalizing s with
  | nil => simp
  | cons t ts ih => rw [List.foldl_cons, ScriptJS.addTask_load_a, ih]; simp

theorem ScriptJS.loadTasks_eq_a (s : AppState) :
    ScriptJS.loadTasks s = { s with dom := s.dom ++ getTasks s.storage } :=
  ScriptJS.foldl_addTask_load_a (getTasks s.storage) s

theorem ScriptJS.domContentLoaded_eq_a (storage : Option (List String)) :
    ScriptJS.domContentLoaded storage =
      { dom := getTasks storage, storage := storage, input := "", messages := [] } := by
  simp [ScriptJS.domContentLoaded, ScriptJS.loadTasks_eq_a]

theorem Part001.addTask_load_b (t : String) (s : AppState) :
    Part001.addTask t false s = { s with dom := s.dom ++ [t] } := rfl

theorem Part001.foldl_addTask_load_b (ts : List String) (s : AppState) :
    ts.foldl (fun acc t => Part001.addTask t false acc) s = { s with dom := s.dom ++ ts } := by
  induction ts generalizing s with
  | nil => simp
  | cons t ts ih => rw [List.foldl_cons, Part001.addTask_load_b, ih]; simp

theorem Part001.loadTasks_eq_b (s : AppState) :
    Part001.loadTasks s = { s with dom := s.dom ++ getTasks s.storage } :=
  Part001.foldl_addTask_load_b (getTasks s.storage) s

theorem Part001.domContentLoaded_eq_b (storage : Option (List String)) :
    Part001.domContentLoaded storage =
      { dom := getTasks storage, storage := storage, input := "", messages := [] } := by
  simp [Part001.domContentLoaded, Part001.loadTasks_eq_b]

theorem Part000.addTask_load_c (t : String) (s : AppState) (ht : t ≠ "") :
    Part000.addTask (some t) false s = { s with dom := s.dom ++ [t], input := "" } := by
  simp [Part000.addTask, ht]

theorem Part000.foldl_addTask_load_c (ts : List String) (s : AppState)
    (hin : s.input = "") (hts : ∀ t ∈ ts, t ≠ "") :
    ts.foldl (fun acc t => Part000.addTask (some t) false acc) s =
      { s with dom := s.dom ++ ts, input := "" } := by
  induction ts generalizing s with
  | nil => cases s; simp_all
  | cons t ts ih =>
      have ht : t ≠ "" := hts t (List.mem_cons_self t ts)
      rw [List.foldl_cons, Part000.addTask_load_c t s ht,
        ih _ rfl (fun u hu => hts u (List.mem_cons_of_mem t hu))]
      simp

theorem Part000.domContentLoaded_eq_c (storage : Option (List String))
    (hts : ∀ t ∈ getTasks storage, t ≠ "") :
    Part000.domContentLoaded storage =
      { dom := getTasks storage, storage := storage, input := "", messages := [] } := by
  rw [Part000.domContentLoaded, Part000.loadTasks,
    Part000.foldl_addTask_load_c (getTasks storage) _ rfl hts]
  simp

theorem scriptjs_load_check :
    ScriptJS.domContentLoaded (some ["A", "B"]) =
      { dom := ["A", "B"], storage := some ["A", "B"], input := "", messages := [] } := by
  decide

theorem scriptjs_submit_check :
    ScriptJS.run (some ["A"]) [Event.submit " B "] =
      { dom := ["A", "B"], storage := some ["A", "B"], input := "", messages := [] } := by
  decide

/-! ## List lemma used by the synchronization invariant -/

/-- Deleting the i-th element of a list whose value occurs exactly once in
the list coincides with filtering that value out. -/
theorem eraseIdx_eq_filter_of_count_one (l : List String) (i : Nat) (a : String)
    (hget : l[i]? = some a) (hcount : l.count a = 1) :
    l.eraseIdx i = l.filter (fun x => x ≠ a) := by
  induction l generalizing i with
  | nil => simp at hget
  | cons b l ih =>
      cases i with
      | zero =>
          simp only [List.getElem?_cons_zero, Option.some.injEq] at hget
          subst hget
          rw [List.count_cons_self] at hcount
          have hnm : b ∉ l := List.count_eq_zero.mp (by omega)
          rw [List.eraseIdx_cons_zero]
          rw [List.filter_cons_of_neg (by simp)]
          symm
          rw [List.filter_eq_self]
          intro x hx
          simp only [ne_eq, decide_eq_true_eq]
          exact fun he => hnm (he ▸ hx)
      | succ i =>
          rw [List.getElem?_cons_succ] at hget
          by_cases hba : b = a
          · subst hba
            rw [List.count_cons_self] at hcount
            have hnm : b ∉ l := List.count_eq_zero.mp (by omega)
            exact absurd (List.getElem?_mem hget) hnm
          · rw [List.count_cons_of_ne (fun h => hba h.symm)] at hcount
            rw [List.eraseIdx_cons_succ, List.filter_cons_of_pos (by simp [hba]), ih i hget hcount]

/-! ## Claim C1: DOM / storage synchronization -/

/-- Claim C1 (corrected): the claimed invariant — rendered list and persisted
sequence equal at rest in every reachable state — fails when a remove click
targets a duplicated text (see `sync_invariant_duplicate_cex`), because
storage removal filters by value while DOM removal detaches one node.  The
invariant does hold for every state reachable when each remove click targets
an entry whose text occurs exactly once in the rendered list at that moment:
in all such states of `src/script.js` the DOM list equals the parsed content
of `localStorage['tasks']`. -/
theorem sync_invariant_safe_removals (s : AppState) (h : SafeRemovalReachable s) :
    s.dom = getTasks s.storage := by
  induction h with
  | load storage => simp [ScriptJS.domContentLoaded_eq_a]
  | submit s t _ ih =>
      by_cases hc : jsTrim t = ""
      · simp [ScriptJS.stepEv, ScriptJS.clickAddButton, hc, ih]
      · simp [ScriptJS.stepEv, ScriptJS.clickAddButton, hc, ScriptJS.addTask,
          ScriptJS.saveTaskToLocalStorage, getTasks, ih]
  | remove s i hcond _ ih =>
      cases hdom : s.dom[i]? with
      | none => simpa [ScriptJS.stepEv, ScriptJS.clickRemove, hdom] using ih
      | some t =>
          have hcount := hcond t hdom
          simp only [ScriptJS.stepEv, ScriptJS.clickRemove, hdom,
            ScriptJS.removeTaskFromLocalStorage, getTasks, Option.getD_some]
          rw [show s.storage.getD [] = s.dom from ih.symm]
          exact eraseIdx_eq_filter_of_count_one s.dom i t hdom hcount

/-- Witness for `sync_invariant_safe_removals`: the state reached by loading
the page over stored tasks `["A", "B"]`, submitting `"C"` and removing the
(unique) entry `"A"` satisfies the invariant. -/
theorem sync_invariant_safe_removals_witness :
    (ScriptJS.stepEv (ScriptJS.stepEv (ScriptJS.domContentLoaded (some ["A", "B"]))
        (Event.submit "C")) (Event.remove 0)).dom =
      getTasks (ScriptJS.stepEv (ScriptJS.stepEv (ScriptJS.domContentLoaded (some ["A", "B"]))
        (Event.submit "C")) (Event.remove 0)).storage :=
  sync_invariant_safe_removals _
    (SafeRemovalReachable.remove _ 0
      (by
        intro t ht
        have hdom : (ScriptJS.stepEv (ScriptJS.domContentLoaded (some ["A", "B"]))
            (Event.submit "C")).dom = ["A", "B", "C"] := by decide
        rw [hdom] at ht
        simp only [List.getElem?_cons_zero, Option.some.injEq] at ht
        subst ht
        rw [hdom]
        decide)
      (SafeRemovalReachable.submit _ "C" (SafeRemovalReachable.load (some ["A", "B"]))))

/-- Counterexample to claim C1 as stated: from stored tasks `["X", "X"]`,
page load renders two entries; clicking Remove on the first entry leaves the
rendered list `["X"]` but filters every `"X"` out of storage, so the rendered
list and the persisted sequence disagree in this reachable at-rest state. -/
theorem sync_invariant_duplicate_cex :
    (ScriptJS.run (some ["X", "X"]) [Event.remove 0]).dom = ["X"] ∧
    getTasks (ScriptJS.run (some ["X", "X"]) [Event.remove 0]).storage = [] ∧
    (ScriptJS.run (some ["X", "X"]) [Event.remove 0]).dom ≠
      getTasks (ScriptJS.run (some ["X", "X"]) [Event.remove 0]).storage := by
  decide

/-! ## Claim C2: value-based storage removal vs. identity-based DOM removal -/

/-- Claim C2 (confirmed): for every persisted sequence and every task text
`t`, `removeTaskFromLocalStorage` removes every occurrence of `t` (the count
of `t` in the resulting stored sequence is zero) while preserving the count
of every other text, and the DOM removal triggered by a click on the i-th
entry detaches exactly that one entry: the rendered list becomes the
original with index i erased, one entry shorter. -/
theorem removal_storage_all_dom_one (storage : Option (List String)) (t : String)
    (s : AppState) (i : Nat) (hi : i < s.dom.length) :
    (getTasks (ScriptJS.removeTaskFromLocalStorage t storage)).count t = 0 ∧
    (∀ u, u ≠ t → (getTasks (ScriptJS.removeTaskFromLocalStorage t storage)).count u =
      (getTasks storage).count u) ∧
    (ScriptJS.clickRemove i s).dom = s.dom.eraseIdx i ∧
    (ScriptJS.clickRemove i s).dom.length + 1 = s.dom.length := by
  have hsome : s.dom[i]? = some s.dom[i] := List.getElem?_eq_getElem hi
  refine ⟨?_, ?_, ?_, ?_⟩
  · rw [List.count_eq_zero]
    intro hmem
    simp [ScriptJS.removeTaskFromLocalStorage, getTasks, List.mem_filter] at hmem
  · intro u hu
    simp only [ScriptJS.removeTaskFromLocalStorage, getTasks, Option.getD_some]
    exact List.count_filter (by simp [hu])
  · simp [ScriptJS.clickRemove, hsome]
  · simp only [ScriptJS.clickRemove, hsome, List.length_eraseIdx, if_pos hi]
    omega

/-- Witness for `removal_storage_all_dom_one`: removing `"a"` from the
stored sequence `["a", "b", "a"]` erases both occurrences of `"a"` and keeps
`"b"`, while a DOM click on entry 0 of the list `["x", "y"]` removes exactly
that entry. -/
theorem removal_storage_all_dom_one_witness :
    (getTasks (ScriptJS.removeTaskFromLocalStorage "a" (some ["a", "b", "a"]))).count "a" = 0 ∧
    (getTasks (ScriptJS.removeTaskFromLocalStorage "a" (some ["a", "b", "a"]))).count "b" =
      (getTasks (some ["a", "b", "a"])).count "b" ∧
    (ScriptJS.clickRemove 0 ⟨["x", "y"], some ["x", "y"], "", []⟩).dom =
      (["x", "y"] : List String).eraseIdx 0 ∧
    (ScriptJS.clickRemove 0 ⟨["x", "y"], some ["x", "y"], "", []⟩).dom.length + 1 =
      (["x", "y"] : List String).length := by
  have h := removal_storage_all_dom_one (some ["a", "b", "a"]) "a"
    ⟨["x", "y"], some ["x", "y"], "", []⟩ 0 (by decide)
  exact ⟨h.1, h.2.1 "b" (by decide), h.2.2.1, h.2.2.2⟩

/-! ## Claim C3: idempotent reload -/

/-- Claim C3 (confirmed): for every persisted sequence `S` under the `tasks`
key, page initialization renders exactly the entries of `S`, in order (the
rendered list equals `S`, hence has `|S|` entries), and leaves the persisted
value unchanged: the load path never writes back to storage. -/
theorem idempotent_reload (S : List String) :
    (ScriptJS.domContentLoaded (some S)).dom = S ∧
    (ScriptJS.domContentLoaded (some S)).storage = some S := by
  simp [ScriptJS.domContentLoaded_eq_a, getTasks]

/-! ## Claim C4: empty submission -/

/-- Claim C4 (corrected): submitting input that trims to the empty string
adds no visible entry and leaves the persisted sequence unchanged in all
three variants, and `src/script.js` (via `alert`) and `src/unnamed/part_000`
(via its message box) show the validation message "Please enter a task." —
but `src/unnamed/part_001` shows no message at all: its click handler has no
else branch, so the empty submission is silently ignored (the whole state is
unchanged except the input field now holding the typed text).  See
`empty_submit_message_cex`. -/
theorem empty_submit_noop (s : AppState) (t : String) (h : jsTrim t = "") :
    (ScriptJS.stepEv s (Event.submit t)).dom = s.dom ∧
    (ScriptJS.stepEv s (Event.submit t)).storage = s.storage ∧
    (ScriptJS.stepEv s (Event.submit t)).messages = s.messages ++ ["Please enter a task."] ∧
    (Part000.stepEv s (Event.submit t)).dom = s.dom ∧
    (Part000.stepEv s (Event.submit t)).storage = s.storage ∧
    (Part000.stepEv s (Event.submit t)).messages = s.messages ++ ["Please enter a task."] ∧
    Part001.stepEv s (Event.submit t) = { s with input := t } := by
  refine ⟨?_, ?_, ?_, ?_, ?_, ?_, ?_⟩ <;>
    simp [ScriptJS.stepEv, Part000.stepEv, Part001.stepEv, ScriptJS.clickAddButton,
      Part001.clickAddButton, Part000.addTask, Part000.showMessage, h]

/-- Witness for `empty_submit_noop`: submitting `"   "` over the state with
one rendered task `"A"` leaves storage at `["A"]`, makes `part_000` show the
validation message, and leaves `part_001` unchanged except the input. -/
theorem empty_submit_noop_witness :
    (ScriptJS.stepEv ⟨["A"], some ["A"], "x", []⟩ (Event.submit "   ")).storage = some ["A"] ∧
    (Part000.stepEv ⟨["A"], some ["A"], "x", []⟩ (Event.submit "   ")).messages =
      ["Please enter a task."] ∧
    Part001.stepEv ⟨["A"], some ["A"], "x", []⟩ (Event.submit "   ") =
      ⟨["A"], some ["A"], "   ", []⟩ := by
  have h := empty_submit_noop ⟨["A"], some ["A"], "x", []⟩ "   " (by decide)
  exact ⟨h.2.1, h.2.2.2.2.2.1, h.2.2.2.2.2.2⟩

/-- Counterexample to claim C4 as stated: under `src/unnamed/part_001`
(cited by the claim), submitting the whitespace-only input `"   "` shows NO
user-visible validation message — `messages` stays empty — even though no
entry is added and storage is unchanged. -/
theorem empty_submit_message_cex :
    (Part001.run (some []) [Event.submit "   "]).messages = [] ∧
    (Part001.run (some []) [Event.submit "   "]).dom = [] ∧
    (Part001.run (some []) [Event.submit "   "]).storage = some [] := by
  decide

/-! ## Claim C5: behavioural equivalence of the three variants -/

/-- One step of `src/script.js` and one step of `src/unnamed/part_001`
started in states that agree on list, storage and input end in states that
again agree on list, storage and input. -/
theorem stepEv_agrees_AB (a b : AppState) (e : Event) (h : Agrees a b) :
    Agrees (ScriptJS.stepEv a e) (Part001.stepEv b e) := by
  obtain ⟨hdom, hstor, hin⟩ := h
  cases e with
  | submit t =>
      by_cases hc : jsTrim t = ""
      · simp [ScriptJS.stepEv, Part001.stepEv, ScriptJS.clickAddButton,
          Part001.clickAddButton, hc, Agrees, hdom, hstor]
      · simp [ScriptJS.stepEv, Part001.stepEv, ScriptJS.clickAddButton,
          Part001.clickAddButton, hc, ScriptJS.addTask, Part001.addTask,
          ScriptJS.saveTaskToLocalStorage, Part001.saveTaskToStorage, Agrees, hdom, hstor]
  | remove i =>
      have hdi2 : b.dom[i]? = a.dom[i]? := by rw [hdom]
      cases hdi : a.dom[i]? with
      | none =>
          rw [hdi] at hdi2
          simp [ScriptJS.stepEv, Part001.stepEv, ScriptJS.clickRemove, Part001.clickRemove,
            hdi, hdi2, Agrees, hdom, hstor, hin]
      | some t =>
          rw [hdi] at hdi2
          simp [ScriptJS.stepEv, Part001.stepEv, ScriptJS.clickRemove, Part001.clickRemove,
            hdi, hdi2, ScriptJS.removeTaskFromLocalStorage, Part001.removeTaskFromStorage,
            Agrees, hdom, hstor, hin]

/-- One step of `src/script.js` and one step of `src/unnamed/part_000`
started in states that agree on list, storage and input end in states that
again agree on list, storage and input. -/
theorem stepEv_agrees_AC (a c : AppState) (e : Event) (h : Agrees a c) :
    Agrees (ScriptJS.stepEv a e) (Part000.stepEv c e) := by
  obtain ⟨hdom, hstor, hin⟩ := h
  cases e with
  | submit t =>
      by_cases hc : jsTrim t = ""
      · simp [ScriptJS.stepEv, Part000.stepEv, ScriptJS.clickAddButton,
          Part000.addTask, Part000.showMessage, hc, Agrees, hdom, hstor]
      · simp [ScriptJS.stepEv, Part000.stepEv, ScriptJS.clickAddButton,
          Part000.addTask, hc, ScriptJS.addTask, ScriptJS.saveTaskToLocalStorage,
          getTasks, Agrees, hdom, hstor]
  | remove i =>
      have hdi2 : c.dom[i]? = a.dom[i]? := by rw [hdom]
      cases hdi : a.dom[i]? with
      | none =>
          rw [hdi] at hdi2
          simp [ScriptJS.stepEv, Part000.stepEv, ScriptJS.clickRemove, Part000.clickRemove,
            hdi, hdi2, Agrees, hdom, hstor, hin]
      | some t =>
          rw [hdi] at hdi2
          simp [ScriptJS.stepEv, Part000.stepEv, ScriptJS.clickRemove, Part000.clickRemove,
            hdi, hdi2, ScriptJS.removeTaskFromLocalStorage, Part000.updateLocalStorageOnRemoval,
            Agrees, hdom, hstor, hin]

theorem foldl_agrees_AB (evs : List Event) (a b : AppState) (h : Agrees a b) :
    Agrees (evs.foldl ScriptJS.stepEv a) (evs.foldl Part001.stepEv b) := by
  induction evs generalizing a b with
  | nil => exact h
  | cons e evs ih => exact ih _ _ (stepEv_agrees_AB a b e h)

theorem foldl_agrees_AC (evs : List Event) (a c : AppState) (h : Agrees a c) :
    Agrees (evs.foldl ScriptJS.stepEv a) (evs.foldl Part000.stepEv c) := by
  induction evs generalizing a c with
  | nil => exact h
  | cons e evs ih => exact ih _ _ (stepEv_agrees_AC a c e h)

/-- Claim C5 (corrected): the three variants are NOT observationally
equivalent — `variants_feedback_cex` exhibits an event sequence on which
their user-visible validation feedback differs.  They do agree on the
visible list and the persisted sequence: for every initial persisted value
whose tasks contain no empty string (an empty stored string makes
`part_000`'s `taskTextFromParam || input` fallback skip the entry) and every
sequence of submit and remove gestures, all three variants produce the same
rendered list and the same persisted sequence. -/
theorem variants_agree_dom_storage (storage : Option (List String)) (evs : List Event)
    (h : "" ∉ getTasks storage) :
    (ScriptJS.run storage evs).dom = (Part001.run storage evs).dom ∧
    (ScriptJS.run storage evs).storage = (Part001.run storage evs).storage ∧
    (ScriptJS.run storage evs).dom = (Part000.run storage evs).dom ∧
    (ScriptJS.run storage evs).storage = (Part000.run storage evs).storage := by
  have hts : ∀ t ∈ getTasks storage, t ≠ "" := fun t ht he => h (he ▸ ht)
  have hinitB : Agrees (ScriptJS.domContentLoaded storage) (Part001.domContentLoaded storage) := by
    rw [ScriptJS.domContentLoaded_eq_a, Part001.domContentLoaded_eq_b]
    exact ⟨rfl, rfl, rfl⟩
  have hinitC : Agrees (ScriptJS.domContentLoaded storage) (Part000.domContentLoaded storage) := by
    rw [ScriptJS.domContentLoaded_eq_a, Part000.domContentLoaded_eq_c storage hts]
    exact ⟨rfl, rfl, rfl⟩
  have hB := foldl_agrees_AB evs _ _ hinitB
  have hC := foldl_agrees_AC evs _ _ hinitC
  exact ⟨hB.1, hB.2.1, hC.1, hC.2.1⟩

/-- Witness for `variants_agree_dom_storage`: loading `["A"]`, submitting
`"B"` and removing entry 0 gives the same list and storage in all three
variants. -/
theorem variants_agree_dom_storage_witness :
    (ScriptJS.run (some ["A"]) [Event.submit "B", Event.remove 0]).dom =
      (Part001.run (some ["A"]) [Event.submit "B", Event.remove 0]).dom ∧
    (ScriptJS.run (some ["A"]) [Event.submit "B", Event.remove 0]).storage =
      (Part001.run (some ["A"]) [Event.submit "B", Event.remove 0]).storage ∧
    (ScriptJS.run (some ["A"]) [Event.submit "B", Event.remove 0]).dom =
      (Part000.run (some ["A"]) [Event.submit "B", Event.remove 0]).dom ∧
    (ScriptJS.run (some ["A"]) [Event.submit "B", Event.remove 0]).storage =
      (Part000.run (some ["A"]) [Event.submit "B", Event.remove 0]).storage :=
  variants_agree_dom_storage (some ["A"]) [Event.submit "B", Event.remove 0] (by decide)

/-- Counterexample to claim C5 as stated: on the event sequence consisting
of one empty submission, `src/script.js` alerts "Please enter a task." while
`src/unnamed/part_001` shows nothing — the user-visible validation feedback
of the variants differs. -/
theorem variants_feedback_cex :
    (ScriptJS.run (some []) [Event.submit ""]).messages = ["Please enter a task."] ∧
    (Part001.run (some []) [Event.submit ""]).messages = [] := by
  decide

/-! ## Claim C6: add-then-reload round-trip -/

/-- Claim C6 (confirmed): from any prior state, submitting the non-empty
task "Buy milk" persists a sequence that is the previous one extended with
"Buy milk" (so it ends in "Buy milk"), and a fresh page initialization from
that persisted sequence renders "Buy milk" as the last visible entry. -/
theorem add_then_reload_roundtrip (s : AppState) :
    (ScriptJS.stepEv s (Event.submit "Buy milk")).storage =
      some (getTasks s.storage ++ ["Buy milk"]) ∧
    (ScriptJS.domContentLoaded
        (ScriptJS.stepEv s (Event.submit "Buy milk")).storage).dom.getLast? =
      some "Buy milk" := by
  have htrim : jsTrim "Buy milk" = "Buy milk" := by decide
  have hstor : (ScriptJS.stepEv s (Event.submit "Buy milk")).storage =
      some (getTasks s.storage ++ ["Buy milk"]) := by
    simp [ScriptJS.stepEv, ScriptJS.clickAddButton, htrim, ScriptJS.addTask,
      ScriptJS.saveTaskToLocalStorage]
  refine ⟨hstor, ?_⟩
  rw [hstor]
  simp [ScriptJS.domContentLoaded_eq_a, getTasks]

/-! ## Claim C7: remove updates both surfaces -/

/-- Claim C7 (confirmed): from the persisted sequence `["A", "B", "C"]`
rendered as three entries, clicking Remove on the entry for "B" (index 1)
leaves the visible list `["A", "C"]` and a persisted sequence that does not
contain "B". -/
theorem remove_b_updates_both :
    (ScriptJS.run (some ["A", "B", "C"]) [Event.remove 1]).dom = ["A", "C"] ∧
    "B" ∉ getTasks (ScriptJS.run (some ["A", "B", "C"]) [Event.remove 1]).storage := by
  decide

/-! ## Claim C8: missing storage key -/

/-- Claim C8 (confirmed): with no value stored under the `tasks` key, the
raw read `getItem('tasks') || '[]'` parses successfully to the empty
sequence (no uncaught error), and initialization of each of the three
variants renders zero entries. -/
theorem missing_key_loads_empty :
    rawLoadTasks none = some [] ∧
    (ScriptJS.domContentLoaded none).dom = [] ∧
    (Part001.domContentLoaded none).dom = [] ∧
    (Part000.domContentLoaded none).dom = [] := by
  decide

/-! ## Claim C9: malformed JSON in storage -/

/-- Claim C9 (corrected): when the value stored under `tasks` is present,
NON-EMPTY, and not valid JSON, the parse failure is not caught: the load
path yields no task list and initialization terminates with the uncaught
error.  The claim's parenthetical "the default-on-missing idiom covers only
an absent key" is too strong: JavaScript `||` tests falsiness, so the
present-but-empty-string value also falls back to `'[]'` and initialization
succeeds with the empty sequence — see `malformed_empty_string_cex`. -/
theorem malformed_storage_uncaught (v : String) (hv : v ≠ "") (hp : parseTasks v = none) :
    rawLoadTasks (some v) = none := by
  simp [rawLoadTasks, getItemOrDefault, hv, hp]

/-- Witness for `malformed_storage_uncaught`: the stored value "not json" is
present, non-empty and unparsable, and the load path propagates the error. -/
theorem malformed_storage_uncaught_witness :
    rawLoadTasks (some "not json") = none :=
  malformed_storage_uncaught "not json" (by decide) (by decide)

/-- Counterexample to claim C9 as stated: the empty string is a present
stored value that is not valid JSON (`JSON.parse('')` throws), yet
initialization does NOT propagate a parse failure: `'' || '[]'` takes the
fallback because `''` is falsy, so the load path falls back to the empty
sequence. -/
theorem malformed_empty_string_cex :
    parseTasks "" = none ∧ rawLoadTasks (some "") = some [] := by
  decide

/-! ## Claim C10: storage removal is idempotent and a no-op on absent texts -/

/-- Claim C10 (confirmed): for every persisted sequence `S` and text `t`,
removing `t` from storage twice gives the same persisted value as removing
it once, and when `t` does not occur in `S` the persisted sequence is
unchanged. -/
theorem storage_removal_idempotent_noop (S : List String) (t : String) :
    ScriptJS.removeTaskFromLocalStorage t
        (ScriptJS.removeTaskFromLocalStorage t (some S)) =
      ScriptJS.removeTaskFromLocalStorage t (some S) ∧
    (t ∉ S → ScriptJS.removeTaskFromLocalStorage t (some S) = some S) := by
  constructor
  · simp [ScriptJS.removeTaskFromLocalStorage, getTasks, List.filter_filter]
  · intro h
    simp only [ScriptJS.removeTaskFromLocalStorage, getTasks, Option.getD_some,
      Option.some.injEq]
    rw [List.filter_eq_self]
    intro x hx
    simp only [ne_eq, decide_eq_true_eq]
    exact fun he => h (he ▸ hx)

/-- Witness for `storage_removal_idempotent_noop`: removing `"c"` from the
stored sequence `["a", "b"]` once or twice leaves `["a", "b"]`. -/
theorem storage_removal_idempotent_noop_witness :
    ScriptJS.removeTaskFromLocalStorage "c"
        (ScriptJS.removeTaskFromLocalStorage "c" (some ["a", "b"])) =
      ScriptJS.removeTaskFromLocalStorage "c" (some ["a", "b"]) ∧
    ScriptJS.removeTaskFromLocalStorage "c" (some ["a", "b"]) = some ["a", "b"] :=
  ⟨(storage_removal_idempotent_noop ["a", "b"] "c").1,
   (storage_removal_idempotent_noop ["a", "b"] "c").2 (by decide)⟩
